import Mathlib

/-!
Verification of the `jursonmo/route` repository: an in-memory IPv4
longest-prefix-match routing table.

The repository has two implementations:
* package `route` (src/route.go): a flat array of 32 mask-length slots with
  one global occupancy bitmask `slotMask : uint32`;
* package `routev2` (src/unnamed/part_001): the slots grouped into 4 sections
  of 8 slots, each section with its own lock and `slotMask : uint8`.

Both call Go's `net.ParseCIDR` to parse CIDR strings.  This file embeds the
relevant fragment of Go's `net` package (`dtoi`, `xtoi`, `parseIPv4`,
`parseIPv6`, `CIDRMask`, `IP.Mask`, `IPMask.Size`, `ParseCIDR`), the two route
table packages, and proves or refutes the specification claims about them.

Machine integers are modelled as `Nat` with explicit `% 2 ^ 32` (resp.
`% 2 ^ 8`) where Go's fixed-width arithmetic can overflow or wrap.  Go maps
are modelled as association lists with unique keys.  Byte strings are
`List Char`; IPs and IP masks are `List Nat` of byte values, exactly as Go's
`net.IP` / `net.IPMask` byte slices.

Go functions that can fail are modelled with `GoResult`:
* `.ok a` — normal return;
* `.error` — the function returned a non-nil `error` value;
* `.crash` — a runtime fault (index out of range, or a fatal error from the
  `sync` package such as unlocking a reader-locked `RWMutex`).

Sequential (single-goroutine) semantics everywhere: balanced
`Lock`/`Unlock` and `RLock`/`RUnlock` pairs are no-ops on the state and are
omitted, but the `routev2.RouteLookup` lock sequence is modelled explicitly
(`LockSt` below) because it is unbalanced: it calls `Unlock` after `RLock`,
which Go's `sync.RWMutex` turns into a fatal runtime error.
-/

/-- Outcome of running a Go function: normal value, returned error, or
runtime fault (array index out of range / sync fatal error). -/
inductive GoResult (α : Type) where
  | ok : α → GoResult α
  | error : GoResult α
  | crash : GoResult α
deriving DecidableEq

/-- `true` iff the result is a normal return. -/
def isOk {α : Type} : GoResult α → Bool
  | .ok _ => true
  | _ => false

/-- Extract the value of an `ok` result, with a default otherwise. -/
def getOk {α : Type} : GoResult α → α → α
  | .ok a, _ => a
  | _, d => d

/-- State of one `sync.RWMutex` in a sequential execution. -/
inductive LockSt where
  | unlocked
  | rlocked : Nat → LockSt
  | wlocked
deriving DecidableEq

/-- `RWMutex.RLock` in an uncontended sequential run (the `wlocked` case
would block forever; it is unreachable in the executions modelled here). -/
def rwRLock : LockSt → LockSt
  | .unlocked => .rlocked 1
  | .rlocked n => .rlocked (n + 1)
  | .wlocked => .wlocked

/-- `RWMutex.Unlock`: legal only when the write lock is held; in every other
state Go throws the fatal error `sync: Unlock of unlocked RWMutex`
(modelled as `none`). -/
def rwUnlock : LockSt → Option LockSt
  | .wlocked => some .unlocked
  | _ => none

/-- `RWMutex.RUnlock`: legal only when at least one read lock is held. -/
def rwRUnlock : LockSt → Option LockSt
  | .rlocked 1 => some .unlocked
  | .rlocked (n + 2) => some (.rlocked (n + 1))
  | _ => none

/-! ### The fragment of Go's `net` package used by the repository -/

/-- Go `net.big`: the cutoff constant of `dtoi`/`xtoi` (0xFFFFFF). -/
def dtoiBig : Nat := 0xFFFFFF

/-- Loop of Go `net.dtoi`: decimal digits accumulated into `n`, `i` chars
consumed so far. -/
def dtoiAux : List Char → Nat → Nat → Nat × Nat × Bool
  | [], n, i => if i = 0 then (0, 0, false) else (n, i, true)
  | c :: cs, n, i =>
    if '0' ≤ c ∧ c ≤ '9' then
      let n1 := n * 10 + (c.toNat - '0'.toNat)
      if dtoiBig ≤ n1 then (dtoiBig, i + 1, false)
      else dtoiAux cs n1 (i + 1)
    else if i = 0 then (0, 0, false) else (n, i, true)

/-- Go `net.dtoi`: parse a decimal number prefix of `s`; returns
(value, characters consumed, ok). -/
def dtoi (s : List Char) : Nat × Nat × Bool := dtoiAux s 0 0

/-- Loop of Go `net.xtoi` (hexadecimal version of `dtoi`). -/
def xtoiAux : List Char → Nat → Nat → Nat × Nat × Bool
  | [], n, i => if i = 0 then (0, i, false) else (n, i, true)
  | c :: cs, n, i =>
    if '0' ≤ c ∧ c ≤ '9' then
      let n1 := n * 16 + (c.toNat - '0'.toNat)
      if dtoiBig ≤ n1 then (0, i, false) else xtoiAux cs n1 (i + 1)
    else if 'a' ≤ c ∧ c ≤ 'f' then
      let n1 := n * 16 + (c.toNat - 'a'.toNat) + 10
      if dtoiBig ≤ n1 then (0, i, false) else xtoiAux cs n1 (i + 1)
    else if 'A' ≤ c ∧ c ≤ 'F' then
      let n1 := n * 16 + (c.toNat - 'A'.toNat) + 10
      if dtoiBig ≤ n1 then (0, i, false) else xtoiAux cs n1 (i + 1)
    else if i = 0 then (0, i, false) else (n, i, true)

/-- Go `net.xtoi`: parse a hexadecimal number prefix of `s`. -/
def xtoi (s : List Char) : Nat × Nat × Bool := xtoiAux s 0 0

/-- Go `net.v4InV6Prefix`: the 12-byte prefix of an IPv4 address stored in
16-byte form (`net.IPv4` returns such a 16-byte slice). -/
def v4InV6 : List Nat := [0, 0, 0, 0, 0, 0, 0, 0, 0, 0, 0xFF, 0xFF]

/-- Loop of Go `net.parseIPv4`: `fld` fields remain, parsed octets
accumulate (reversed) in `acc`; a `'.'` separator is required before every
field except the first.  Includes the Go 1.17 rejection of leading zeros. -/
def parseIPv4Loop : Nat → List Char → List Nat → Option (List Nat)
  | 0, s, acc => if s = [] then some (v4InV6 ++ acc.reverse) else none
  | fld + 1, s, acc =>
    if s = [] then none
    else
      match (if acc = [] then some s else
        match s with
        | '.' :: rest => some rest
        | _ => none) with
      | none => none
      | some s1 =>
        match dtoi s1 with
        | (n, c, ok) =>
          if ¬ ok ∨ 0xFF < n then none
          else if 1 < c ∧ s1.headD ' ' = '0' then none
          else parseIPv4Loop fld (s1.drop c) (n :: acc)

/-- Go `net.parseIPv4`: returns the 16-byte (v4-in-v6) form, like
`net.IPv4(a, b, c, d)`. -/
def parseIPv4 (s : List Char) : Option (List Nat) := parseIPv4Loop 4 s []

/-- Main loop of Go `net.parseIPv6`.  `ip` is the 16-byte array being
filled, `i` the next byte index, `ell` the position of a `::` ellipsis if
one was seen.  Returns the loop's exit state
`(ip, i, ellipsis, remaining input)`, or `none` where Go returns `nil`.
The loop runs while `i < 16` and every iteration increases `i` by 2, so
the structural fuel of 8 supplied by `parseIPv6` is exact and the fuel-0
case is unreachable from the entry point. -/
def parseIPv6Loop : Nat → List Char → List Nat → Nat → Option Nat →
    Option (List Nat × Nat × Option Nat × List Char)
  | 0, s, ip, i, ell => some (ip, i, ell, s)
  | fuel + 1, s, ip, i, ell =>
  if i < 16 then
    match xtoi s with
    | (n, c, ok) =>
      if ¬ ok ∨ 0xFFFF < n then none
      else if c < s.length ∧ s.getD c ' ' = '.' then
        if ell.isNone ∧ i ≠ 12 then none
        else if 16 < i + 4 then none
        else
          match parseIPv4 s with
          | none => none
          | some ip4 =>
            let ip1 := (((ip.set i (ip4.getD 12 0)).set (i + 1) (ip4.getD 13 0)).set
              (i + 2) (ip4.getD 14 0)).set (i + 3) (ip4.getD 15 0)
            some (ip1, i + 4, ell, [])
      else
        let ip1 := (ip.set i (n / 256)).set (i + 1) (n % 256)
        let s1 := s.drop c
        if s1 = [] then some (ip1, i + 2, ell, [])
        else if s1.headD ' ' ≠ ':' ∨ s1.length = 1 then none
        else
          let s2 := s1.drop 1
          if s2.headD ' ' = ':' then
            if ell.isSome then none
            else
              let s3 := s2.drop 1
              if s3 = [] then some (ip1, i + 2, some (i + 2), [])
              else parseIPv6Loop fuel s3 ip1 (i + 2) (some (i + 2))
          else parseIPv6Loop fuel s2 ip1 (i + 2) ell
  else some (ip, i, ell, s)

/-- The move loop of `net.parseIPv6`'s ellipsis expansion:
`for j := i-1; j >= ellipsis; j-- ip[j+n] = ip[j]` — `j` is the current
index, the last argument counts the remaining iterations. -/
def ipMove (n : Nat) : List Nat → Nat → Nat → List Nat
  | ip, _, 0 => ip
  | ip, j, k + 1 => ipMove n (ip.set (j + n) (ip.getD j 0)) (j - 1) k

/-- The zero loop of `net.parseIPv6`'s ellipsis expansion:
`for j := ellipsis+n-1; j >= ellipsis; j-- ip[j] = 0`. -/
def ipZero : List Nat → Nat → Nat → List Nat
  | ip, _, 0 => ip
  | ip, j, k + 1 => ipZero (ip.set j 0) (j - 1) k

/-- The code after the main loop of Go `net.parseIPv6`. -/
def parseIPv6Post : Option (List Nat × Nat × Option Nat × List Char) → Option (List Nat)
  | none => none
  | some (ip, i, ell, s) =>
    if s ≠ [] then none
    else if i < 16 then
      match ell with
      | none => none
      | some e =>
        let n := 16 - i
        some (ipZero (ipMove n ip (i - 1) (i - e)) (e + n - 1) n)
    else if ell.isSome then none
    else some ip

/-- Go `net.parseIPv6` (without zone): 16-byte IPv6 address. -/
def parseIPv6 (s0 : List Char) : Option (List Nat) :=
  let ip0 := List.replicate 16 0
  match s0 with
  | ':' :: ':' :: rest =>
    if rest = [] then some ip0
    else parseIPv6Post (parseIPv6Loop 8 rest ip0 0 (some 0))
  | _ => parseIPv6Post (parseIPv6Loop 8 s0 ip0 0 none)

/-- Go `net.splitHostZone`: strip a `%zone` suffix (only when the `'%'` is
at a positive index). -/
def splitZone (s : List Char) : List Char :=
  match ((List.range s.length).filter fun k => s.getD k ' ' = '%').getLast? with
  | some i => if 0 < i then s.take i else s
  | none => s

/-- Go `net.parseIPv6Zone`, zone discarded (as `net.ParseCIDR` does). -/
def parseIPv6Zone (s : List Char) : Option (List Nat) := parseIPv6 (splitZone s)

/-- Byte-building loop of Go `net.CIDRMask`. -/
def cidrMaskLoop : Nat → Nat → List Nat
  | 0, _ => []
  | l + 1, n => (if 8 ≤ n then 0xFF else 0xFF ^^^ (0xFF >>> n)) :: cidrMaskLoop l (n - 8)

/-- Go `net.CIDRMask ones bits`: a mask of `bits/8` bytes whose first
`ones` bits are set; `none` where Go returns `nil`. -/
def CIDRMask (ones bits : Nat) : Option (List Nat) :=
  if bits ≠ 32 ∧ bits ≠ 128 then none
  else if bits < ones then none
  else some (cidrMaskLoop (bits / 8) ones)

/-- Go `net.IP.Mask`: byte-wise AND after reconciling 4-byte and 16-byte
representations; `none` where Go returns `nil`. -/
def ipMask (ip mask : List Nat) : Option (List Nat) :=
  let mask1 := if mask.length = 16 ∧ ip.length = 4 ∧ (mask.take 12).all (· = 0xFF)
    then mask.drop 12 else mask
  let ip1 := if mask1.length = 4 ∧ ip.length = 16 ∧ ip.take 12 = v4InV6
    then ip.drop 12 else ip
  if ip1.length ≠ mask1.length then none
  else some (List.zipWith (· &&& ·) ip1 mask1)

/-- Inner loop of Go `net.simpleMaskLength` counting the leading one bits
of a single byte; returns (count, remaining shifted byte). -/
def byteLeadingOnes : Nat → Nat → Nat × Nat
  | v, 0 => (0, v)
  | v, f + 1 =>
    if v &&& 0x80 ≠ 0 then
      let p := byteLeadingOnes ((v <<< 1) &&& 0xFF) f
      (p.1 + 1, p.2)
    else (0, v)

/-- Go `net.simpleMaskLength`: number of leading one bits if the mask is of
the form 1…10…0, else `none` (Go's -1). -/
def simpleMaskLength : List Nat → Option Nat
  | [] => some 0
  | v :: rest =>
    if v = 0xFF then (simpleMaskLength rest).map (8 + ·)
    else
      let p := byteLeadingOnes v 8
      if p.2 ≠ 0 then none
      else if rest.all (· = 0) then some p.1 else none

/-- Go `net.IPMask.Size`: (ones, bits), or (0, 0) for a non-canonical mask. -/
def maskSize (m : List Nat) : Nat × Nat :=
  match simpleMaskLength m with
  | none => (0, 0)
  | some n => (n, 8 * m.length)

/-- Split at the first `'/'`, as `net.ParseCIDR` does. -/
def splitSlash : List Char → Option (List Char × List Char)
  | [] => none
  | c :: cs =>
    if c = '/' then some ([], cs)
    else
      match splitSlash cs with
      | none => none
      | some (a, b) => some (c :: a, b)

/-- Go `net.ParseCIDR`: returns the fields of the `*net.IPNet` result used
by the repository, `(ipnet.IP, ipnet.Mask)` — the network address already
masked with the CIDR mask — or `none` where Go returns a parse error.
Note that, exactly as in Go, an IPv6 CIDR parses successfully. -/
def ParseCIDR (s : List Char) : Option (List Nat × List Nat) :=
  match splitSlash s with
  | none => none
  | some (addr, maskStr) =>
    let p : Option (List Nat) × Nat :=
      match parseIPv4 addr with
      | some ip => (some ip, 4)
      | none => (parseIPv6Zone addr, 16)
    match p.1 with
    | none => none
    | some ip =>
      match dtoi maskStr with
      | (n, i, ok) =>
        if ¬ ok ∨ i ≠ maskStr.length ∨ 8 * p.2 < n then none
        else
          match CIDRMask n (8 * p.2) with
          | none => none
          | some m =>
            match ipMask ip m with
            | none => none
            | some masked => some (masked, m)

/-- Go `binary.BigEndian.Uint32`: big-endian word from the first four
bytes; `none` models the bounds-check panic when fewer than 4 bytes. -/
def beUint32 (b : List Nat) : Option Nat :=
  if b.length < 4 then none
  else some (b.getD 0 0 * 0x1000000 + b.getD 1 0 * 0x10000 + b.getD 2 0 * 0x100 + b.getD 3 0)

/-! ### Go map model: association lists with unique keys -/

/-- Go map insert/overwrite (`m[k] = v`). -/
def mapInsert {V : Type} : List (Nat × V) → Nat → V → List (Nat × V)
  | [], k, v => [(k, v)]
  | (k1, v1) :: rest, k, v =>
    if k1 = k then (k, v) :: rest else (k1, v1) :: mapInsert rest k v

/-- Go map delete (`delete(m, k)`). -/
def mapDelete {V : Type} (m : List (Nat × V)) (k : Nat) : List (Nat × V) :=
  m.filter fun p => p.1 != k

/-- Go map lookup (`v, ok := m[k]`). -/
def mapLookup {V : Type} (m : List (Nat × V)) (k : Nat) : Option V :=
  match m.find? fun p => p.1 == k with
  | some p => some p.2
  | none => none

/-- The per-slot mask value computed by both `NewRouteTable` constructors:
Go `(1 << (maskMaxLen - uint32(i))) - 1` in `uint32` arithmetic.  At `i = 0`
the shift by 32 yields 0 and the subtraction wraps to `0xFFFFFFFF`. -/
def entryMaskVal (i : Nat) : Nat := (((1 <<< (32 - i)) % 2 ^ 32) + (2 ^ 32 - 1)) % 2 ^ 32

/-! ### Package `route` (src/route.go): flat 32-slot table -/

namespace route

/-- Go `rtEntry`: per-prefix-length slot (mutex omitted; its Lock/Unlock
pairs are balanced and sequential semantics make them no-ops). -/
structure rtEntry (V : Type) where
  mask : Nat
  rtHash : List (Nat × V)
deriving DecidableEq

/-- Go `routeTable`: occupancy bitmask (`uint32`) plus the `[32]rtEntry`
array, modelled as a list whose length is 32 for every table the
constructor and the operations produce. -/
structure routeTable (V : Type) where
  slotMask : Nat
  rts : List (rtEntry V)
deriving DecidableEq

/-- Default `rtEntry` used for out-of-range reads (never hit on length-32
tables, where every Go access is in bounds). -/
def entry0 {V : Type} : rtEntry V := ⟨0, []⟩

/-- Go `NewRouteTable`. -/
def NewRouteTable {V : Type} : routeTable V :=
  ⟨0, (List.range 32).map fun i => ⟨entryMaskVal i, []⟩⟩

/-- Body of Go `AddRoute` after `net.ParseCIDR` succeeded, given
`(ipnet.IP, ipnet.Mask)`.  `slot` is a Go `int` and the array access
`rt.rts[slot]` panics out of `[0, 32)`. -/
def addRouteCore {V : Type} (rt : routeTable V) (ipB maskB : List Nat) (v : V) :
    GoResult (routeTable V) :=
  let maskLen : Nat := (maskSize maskB).1
  let slot : Int := 32 - (maskLen : Int)
  match beUint32 ipB with
  | none => .crash
  | some net =>
    if 0 ≤ slot ∧ slot < 32 then
      let s := slot.toNat
      let e := rt.rts.getD s entry0
      let n := e.rtHash.length
      let rts1 := rt.rts.set s ⟨e.mask, mapInsert e.rtHash net v⟩
      if 0 < n then .ok ⟨rt.slotMask, rts1⟩
      else
        .ok ⟨if 0 < (rts1.getD s entry0).rtHash.length
             then rt.slotMask ||| ((1 <<< s) % 2 ^ 32)
             else rt.slotMask, rts1⟩
    else .crash

/-- Go `(*routeTable).AddRoute`. -/
def AddRoute {V : Type} (rt : routeTable V) (network : String) (v : V) :
    GoResult (routeTable V) :=
  match ParseCIDR network.toList with
  | none => .error
  | some (ipB, maskB) => addRouteCore rt ipB maskB v

/-- Body of Go `DelRoute` after `net.ParseCIDR` succeeded.  The bit is
cleared with `rt.slotMask &= ^(1 << uint32(slot))`, i.e. AND with the
`uint32` complement. -/
def delRouteCore {V : Type} (rt : routeTable V) (ipB maskB : List Nat) :
    GoResult (routeTable V) :=
  let maskLen : Nat := (maskSize maskB).1
  let slot : Int := 32 - (maskLen : Int)
  match beUint32 ipB with
  | none => .crash
  | some net =>
    if 0 ≤ slot ∧ slot < 32 then
      let s := slot.toNat
      let e := rt.rts.getD s entry0
      let rts1 := rt.rts.set s ⟨e.mask, mapDelete e.rtHash net⟩
      .ok ⟨if (rts1.getD s entry0).rtHash.length = 0
           then rt.slotMask &&& ((2 ^ 32 - 1) ^^^ ((1 <<< s) % 2 ^ 32))
           else rt.slotMask, rts1⟩
    else .crash

/-- Go `(*routeTable).DelRoute`. -/
def DelRoute {V : Type} (rt : routeTable V) (network : String) :
    GoResult (routeTable V) :=
  match ParseCIDR network.toList with
  | none => .error
  | some (ipB, maskB) => delRouteCore rt ipB maskB

/-- The `for i := 0; i < maskMaxLen; i++` loop of Go `RouteLookup`; the
fuel argument is `32 - i`.  The `rt.RLock`/`RUnlock` and per-entry
`RLock`/`RUnlock` pairs are balanced, hence omitted under sequential
semantics. -/
def lookupLoop {V : Type} (rts : List (rtEntry V)) (ip : Nat) : Nat → Nat → Option V
  | _, 0 => none
  | rtMask, f + 1 =>
    if rtMask = 0 then none
    else
      let i := 32 - (f + 1)
      let e := rts.getD i entry0
      match (if rtMask &&& 1 ≠ 0 then mapLookup e.rtHash (ip &&& e.mask) else none) with
      | some v => some v
      | none => lookupLoop rts ip (rtMask >>> 1) f

/-- Go `(*routeTable).RouteLookup`, with the stored values kept abstract:
`some v` when a slot map probe hits, `none` for Go's final `return nil`. -/
def RouteLookup {V : Type} (rt : routeTable V) (ip : Nat) : Option V :=
  lookupLoop rt.rts ip rt.slotMask 32

/-- Same loop at the concrete Go type: stored values are `interface{}`
(`Option W`, `none` = Go `nil`), and a hit returns the stored value
itself (`return v`), so the not-found `nil` and a stored `nil` coincide. -/
def lookupLoopIface {W : Type} (rts : List (rtEntry (Option W))) (ip : Nat) :
    Nat → Nat → Option W
  | _, 0 => none
  | rtMask, f + 1 =>
    if rtMask = 0 then none
    else
      let i := 32 - (f + 1)
      let e := rts.getD i entry0
      match (if rtMask &&& 1 ≠ 0 then mapLookup e.rtHash (ip &&& e.mask) else none) with
      | some v => v
      | none => lookupLoopIface rts ip (rtMask >>> 1) f

/-- Go `(*routeTable).RouteLookup` at the concrete `interface{}` value
type: the value actually returned to the caller. -/
def RouteLookupIface {W : Type} (rt : routeTable (Option W)) (ip : Nat) : Option W :=
  lookupLoopIface rt.rts ip rt.slotMask 32

end route

/-! ### Package `routev2` (src/unnamed/part_001): 4 sections × 8 slots -/

namespace routev2

/-- Go `rtEntry` of package routev2 (no per-entry mutex). -/
structure rtEntry (V : Type) where
  mask : Nat
  rtHash : List (Nat × V)
deriving DecidableEq

/-- Go `rtSection`: occupancy bitmask (`uint8`) plus `[SectionSize]rtEntry`
(SectionSize = 8); the section's `RWMutex` state is per-operation. -/
structure rtSection (V : Type) where
  slotMask : Nat
  rtSec : List (rtEntry V)
deriving DecidableEq

/-- Go `routeTable` of package routev2: `[IpSection]rtSection`
(IpSection = 4). -/
structure routeTable (V : Type) where
  rts : List (rtSection V)
deriving DecidableEq

/-- Default entry for out-of-range reads (never hit on well-formed tables). -/
def entry0 {V : Type} : rtEntry V := ⟨0, []⟩

/-- Default section for out-of-range reads. -/
def sec0 {V : Type} : rtSection V := ⟨0, []⟩

/-- Go `NewRouteTable` of package routev2: slot `idx = i*SectionSize + j`
gets the same (buggy) low-bits mask value as the flat variant. -/
def NewRouteTable {V : Type} : routeTable V :=
  ⟨(List.range 4).map fun i =>
    ⟨0, (List.range 8).map fun j => ⟨entryMaskVal (i * 8 + j), []⟩⟩⟩

/-- Body of routev2 `AddRoute` after parsing.  Note Go computes
`ipID := slot / IpSection` (division by 4, truncating toward zero — hence
`Int.tdiv`) and `secID := slot & (SectionSize - 1)` (low three bits of the
two's-complement value — hence `slot % 8`, Lean's Euclidean `%`); `rt.rts[ipID]` panics
outside `[0, 4)`. -/
def addRouteCore {V : Type} (rt : routeTable V) (ipB maskB : List Nat) (v : V) :
    GoResult (routeTable V) :=
  let maskLen : Nat := (maskSize maskB).1
  let slot : Int := 32 - (maskLen : Int)
  match beUint32 ipB with
  | none => .crash
  | some net =>
    let ipID : Int := Int.tdiv slot 4
    let secID : Int := slot % 8
    if 0 ≤ ipID ∧ ipID < 4 then
      let si := ipID.toNat
      let sj := secID.toNat
      let sec := rt.rts.getD si sec0
      let e := sec.rtSec.getD sj entry0
      .ok ⟨rt.rts.set si
        ⟨sec.slotMask ||| ((1 <<< sj) % 2 ^ 8),
         sec.rtSec.set sj ⟨e.mask, mapInsert e.rtHash net v⟩⟩⟩
    else .crash

/-- Go routev2 `(*routeTable).AddRoute`. -/
def AddRoute {V : Type} (rt : routeTable V) (network : String) (v : V) :
    GoResult (routeTable V) :=
  match ParseCIDR network.toList with
  | none => .error
  | some (ipB, maskB) => addRouteCore rt ipB maskB v

/-- Body of routev2 `DelRoute` after parsing; the occupancy bit is cleared
with the `uint8` complement when the slot map becomes empty. -/
def delRouteCore {V : Type} (rt : routeTable V) (ipB maskB : List Nat) :
    GoResult (routeTable V) :=
  let maskLen : Nat := (maskSize maskB).1
  let slot : Int := 32 - (maskLen : Int)
  match beUint32 ipB with
  | none => .crash
  | some net =>
    let ipID : Int := Int.tdiv slot 4
    let secID : Int := slot % 8
    if 0 ≤ ipID ∧ ipID < 4 then
      let si := ipID.toNat
      let sj := secID.toNat
      let sec := rt.rts.getD si sec0
      let e := sec.rtSec.getD sj entry0
      let newHash := mapDelete e.rtHash net
      .ok ⟨rt.rts.set si
        ⟨if newHash.length = 0
         then sec.slotMask &&& ((2 ^ 8 - 1) ^^^ ((1 <<< sj) % 2 ^ 8))
         else sec.slotMask,
         sec.rtSec.set sj ⟨e.mask, newHash⟩⟩⟩
    else .crash

/-- Go routev2 `(*routeTable).DelRoute`. -/
def DelRoute {V : Type} (rt : routeTable V) (network : String) :
    GoResult (routeTable V) :=
  match ParseCIDR network.toList with
  | none => .error
  | some (ipB, maskB) => delRouteCore rt ipB maskB

/-- The `for j := 0; j < SectionSize; j++` inner loop of routev2
`RouteLookup` (no locking around the map probe); fuel is `8 - j`. -/
def lookupInner {V : Type} (sec : rtSection V) (ip : Nat) : Nat → Nat → Option V
  | _, 0 => none
  | bitMask, f + 1 =>
    if bitMask = 0 then none
    else
      let j := 8 - (f + 1)
      let e := sec.rtSec.getD j entry0
      match (if bitMask &&& 1 ≠ 0 then mapLookup e.rtHash (e.mask &&& ip) else none) with
      | some v => some v
      | none => lookupInner sec ip (bitMask >>> 1) f

/-- The `for i := 0; i < IpSection; i++` outer loop of routev2
`RouteLookup`.  Each iteration performs, on the section's mutex (unlocked
at the start of a sequential call), `sec.RLock()`, the bitmask snapshot,
then `sec.Unlock()` — the write-unlock, not `RUnlock` — which is a fatal
runtime error in Go's `sync` package. -/
def lookupSections {V : Type} (rts : List (rtSection V)) (ip : Nat) :
    Nat → GoResult (Option V)
  | 0 => .ok none
  | f + 1 =>
    let i := 4 - (f + 1)
    let sec := rts.getD i sec0
    let st := rwRLock .unlocked
    let bitMask := sec.slotMask
    match rwUnlock st with
    | none => .crash
    | some _ =>
      match lookupInner sec ip bitMask 8 with
      | some v => .ok (some v)
      | none => lookupSections rts ip f

/-- Go routev2 `(*routeTable).RouteLookup`. -/
def RouteLookup {V : Type} (rt : routeTable V) (ip : Nat) : GoResult (Option V) :=
  lookupSections rt.rts ip 4

end routev2

/-! ### Spec-side definitions and invariants -/

/-- Modelled from the spec (§3 Data Model, Slot): the intended mask for
prefix length `L` — "the 32-bit bitmask corresponding to L (top L bits
set), `mask(L) = (L==0) ? 0 : 0xFFFFFFFF << (32-L)`" — stated here only to
compare against the mask the code actually precomputes. -/
def specTopMask (L : Nat) : Nat :=
  if L = 0 then 0 else (0xFFFFFFFF <<< (32 - L)) % 2 ^ 32

namespace route

/-- Occupancy invariant of the flat table (spec §3 Section invariant): the
slot array has its 32 slots, the bitmask fits in 32 bits, and bit `i` is
set iff slot `i`'s mapping is non-empty. -/
def Inv {V : Type} (rt : routeTable V) : Prop :=
  rt.rts.length = 32 ∧ rt.slotMask < 2 ^ 32 ∧
    ∀ i : Nat, i < 32 →
      (rt.slotMask.testBit i = true ↔ (rt.rts.getD i entry0).rtHash ≠ [])

/-- Table states reachable from `NewRouteTable` by successful `AddRoute`
and `DelRoute` calls. -/
inductive Reachable {V : Type} : routeTable V → Prop where
  | base : Reachable NewRouteTable
  | add {rt rt' : routeTable V} {s : String} {v : V} :
      Reachable rt → AddRoute rt s v = .ok rt' → Reachable rt'
  | del {rt rt' : routeTable V} {s : String} :
      Reachable rt → DelRoute rt s = .ok rt' → Reachable rt'

end route

namespace routev2

/-- Occupancy invariant of the sectioned table: 4 sections of 8 slots, each
section's `uint8` bitmask in range, and bit `j` of a section's bitmask set
iff its slot `j`'s mapping is non-empty. -/
def Inv {V : Type} (rt : routeTable V) : Prop :=
  rt.rts.length = 4 ∧
    ∀ i : Nat, i < 4 →
      (rt.rts.getD i sec0).slotMask < 2 ^ 8 ∧
      (rt.rts.getD i sec0).rtSec.length = 8 ∧
      ∀ j : Nat, j < 8 →
        ((rt.rts.getD i sec0).slotMask.testBit j = true ↔
          ((rt.rts.getD i sec0).rtSec.getD j entry0).rtHash ≠ [])

/-- Table states reachable from routev2 `NewRouteTable` by successful
`AddRoute` and `DelRoute` calls. -/
inductive Reachable {V : Type} : routeTable V → Prop where
  | base : Reachable NewRouteTable
  | add {rt rt' : routeTable V} {s : String} {v : V} :
      Reachable rt → AddRoute rt s v = .ok rt' → Reachable rt'
  | del {rt rt' : routeTable V} {s : String} :
      Reachable rt → DelRoute rt s = .ok rt' → Reachable rt'

end routev2

/-! ### List helper lemmas -/

theorem getD_set_self {α : Type} (l : List α) (i : Nat) (a d : α) (h : i < l.length) :
    (l.set i a).getD i d = a := by
  induction l generalizing i with
  | nil => simp at h
  | cons x xs ih =>
    cases i with
    | zero => rfl
    | succ n => simpa using ih n (by simpa using h)

theorem getD_set_ne {α : Type} (l : List α) {i j : Nat} (a d : α) (h : i ≠ j) :
    (l.set i a).getD j d = l.getD j d := by
  induction l generalizing i j with
  | nil => simp [List.set]
  | cons x xs ih =>
    cases i with
    | zero =>
      cases j with
      | zero => exact absurd rfl h
      | succ m => rfl
    | succ n =>
      cases j with
      | zero => rfl
      | succ m => simpa using ih (fun hnm => h (by omega))

theorem set_getD_self {α : Type} (l : List α) (i : Nat) (d : α) (h : i < l.length) :
    l.set i (l.getD i d) = l := by
  induction l generalizing i with
  | nil => simp at h
  | cons x xs ih =>
    cases i with
    | zero => rfl
    | succ n => simpa using ih n (by simpa using h)

theorem getD_range_map {α : Type} (f : Nat → α) (n i : Nat) (d : α) (h : i < n) :
    (((List.range n).map f).getD i d) = f i := by
  rw [List.getD_eq_getElem?_getD, List.getElem?_map, List.getElem?_range h]
  rfl

theorem mapInsert_ne_nil {V : Type} (m : List (Nat × V)) (k : Nat) (v : V) :
    mapInsert m k v ≠ [] := by
  cases m with
  | nil => simp [mapInsert]
  | cons p rest =>
    obtain ⟨k1, v1⟩ := p
    unfold mapInsert
    split <;> simp

theorem mapDelete_of_absent {V : Type} (m : List (Nat × V)) (k : Nat)
    (h : ∀ p ∈ m, p.1 ≠ k) : mapDelete m k = m := by
  unfold mapDelete
  rw [List.filter_eq_self]
  intro p hp
  simpa using h p hp

/-! ### Claim theorems -/

set_option maxRecDepth 40000

/-- C1 — refuted (code bug).  The claim's own example fails on the code:
after `AddRoute 10.0.0.0/24 -> 1` and `AddRoute 10.0.0.0/16 -> 2` (both of
which succeed), `RouteLookup 10.0.0.5` returns not-found instead of the
/24 value, and after deleting the /24 it still returns not-found instead
of the /16 value.  The cause is the mask bug of C2: the slot masks keep
the low bits, so `10.0.0.5 & rts[8].mask = 0x00000005` never equals the
stored network key `0x0A000000`. -/
theorem c1_lpm_example_fails :
    (let t0 := route.NewRouteTable (V := Nat)
     let t1 := getOk (route.AddRoute t0 ("10.0.0.0/24") 1) t0
     let t2 := getOk (route.AddRoute t1 ("10.0.0.0/16") 2) t1
     let t3 := getOk (route.DelRoute t2 ("10.0.0.0/24")) t2
     isOk (route.AddRoute t0 ("10.0.0.0/24") 1) = true ∧
     isOk (route.AddRoute t1 ("10.0.0.0/16") 2) = true ∧
     isOk (route.DelRoute t2 ("10.0.0.0/24")) = true ∧
     (t2.rts.getD 8 route.entry0).rtHash = [(0x0A000000, 1)] ∧
     (t2.rts.getD 16 route.entry0).rtHash = [(0x0A000000, 2)] ∧
     route.RouteLookup t2 0x0A000005 = none ∧
     route.RouteLookup t3 0x0A000005 = none) := by
  decide

/-- C2 — refuted (code bug).  `NewRouteTable` stores
`(1 << (32 - i)) - 1`, the mask with the LOW `32 - i` bits set, not the
top-bits mask the spec prescribes (the complement is missing).  At slot
`i = 1` (prefix length 31) the stored mask is `0x7FFFFFFF` whereas the
spec's mask is `0xFFFFFFFE`; slot `i = 0` is accidentally correct because
the `uint32` shift by 32 wraps to `0 - 1 = 0xFFFFFFFF`. -/
theorem c2_mask_precompute_wrong :
    ((route.NewRouteTable (V := Nat)).rts.getD 1 route.entry0).mask = 0x7FFFFFFF ∧
    specTopMask 31 = 0xFFFFFFFE ∧
    ((route.NewRouteTable (V := Nat)).rts.getD 1 route.entry0).mask ≠ specTopMask 31 ∧
    ((route.NewRouteTable (V := Nat)).rts.getD 8 route.entry0).mask ≠ specTopMask 24 ∧
    ((route.NewRouteTable (V := Nat)).rts.getD 0 route.entry0).mask = specTopMask 32 := by
  decide

/-- C3 — refuted (code bug).  A prefix length of 0 (the default route,
which the spec includes in the valid range [0, 32]) gives
`slot = 32 - 0 = 32`, and `rt.rts[slot]` on the `[32]rtEntry` array is an
index-out-of-range panic, in `AddRoute` and `DelRoute` of the flat
variant and likewise (via `rts[8]` on the `[4]rtSection` array) in the
sectioned variant. -/
theorem c3_default_route_panics :
    route.AddRoute (route.NewRouteTable (V := Nat)) ("0.0.0.0/0") 7 = .crash ∧
    route.DelRoute (route.NewRouteTable (V := Nat)) ("0.0.0.0/0") = .crash ∧
    routev2.AddRoute (routev2.NewRouteTable (V := Nat)) ("0.0.0.0/0") 7 = .crash ∧
    routev2.DelRoute (routev2.NewRouteTable (V := Nat)) ("0.0.0.0/0") = .crash := by
  decide

/-- C4 — refuted (code bug).  routev2's `AddRoute` computes the section as
`slot / IpSection` (= slot/4) instead of `slot / SectionSize` (= slot/8).
For `10.0.0.0/24` (slot 8) it therefore writes into section 2, offset 0 —
the slot `NewRouteTable` built for prefix length 16 (mask `0xFFFF`) —
while the slot built for prefix length 24 (section 1, offset 0, mask
`0xFFFFFF`) stays empty; and for `10.0.0.0/16` (slot 16) it computes
section index 4 and panics on the `[4]rtSection` array. -/
theorem c4_slot_placement_disagrees :
    (let t0 := routev2.NewRouteTable (V := Nat)
     let t := getOk (routev2.AddRoute t0 ("10.0.0.0/24") 1) t0
     isOk (routev2.AddRoute t0 ("10.0.0.0/24") 1) = true ∧
     ((t.rts.getD 2 routev2.sec0).rtSec.getD 0 routev2.entry0).rtHash = [(0x0A000000, 1)] ∧
     ((t.rts.getD 1 routev2.sec0).rtSec.getD 0 routev2.entry0).rtHash = [] ∧
     ((t0.rts.getD 1 routev2.sec0).rtSec.getD 0 routev2.entry0).mask = entryMaskVal 8 ∧
     ((t0.rts.getD 2 routev2.sec0).rtSec.getD 0 routev2.entry0).mask = entryMaskVal 16 ∧
     routev2.AddRoute t0 ("10.0.0.0/16") 1 = .crash) := by
  decide

/-- C6 — refuted (code bug).  The stored key IS the canonical network
prefix (Go's `net.ParseCIDR` returns `ipnet.IP` already masked with the
true CIDR mask — `AddRoute` itself performs no masking), but re-masking it
with the slot's precomputed mask is NOT the identity, because that
precomputed mask is the low-bits mask of C2: for `10.0.0.0/24` the stored
key `0x0A000000` re-masked with `rts[8].mask = 0x00FFFFFF` gives 0.
Against the spec's intended top-bits mask the key is a fixpoint. -/
theorem c6_remask_not_identity :
    (let t0 := route.NewRouteTable (V := Nat)
     let t := getOk (route.AddRoute t0 ("10.0.0.0/24") 1) t0
     (t.rts.getD 8 route.entry0).rtHash = [(0x0A000000, 1)] ∧
     0x0A000000 &&& (t.rts.getD 8 route.entry0).mask = 0 ∧
     0x0A000000 &&& (t.rts.getD 8 route.entry0).mask ≠ 0x0A000000 ∧
     0x0A000000 &&& specTopMask 24 = 0x0A000000) := by
  decide

/-- C7 — refuted (code bug).  `net.ParseCIDR` accepts IPv6 CIDR literals,
so `AddRoute` does NOT reject them with a parse error: a well-formed IPv6
/32 is accepted outright (its first four bytes become the stored key), and
an IPv6 prefix length greater than 32 makes `slot = 32 - maskLen`
negative, so `rt.rts[slot]` panics.  A genuinely malformed IPv4 CIDR does
return the parse error. -/
theorem c7_ipv6_not_rejected :
    isOk (route.AddRoute (route.NewRouteTable (V := Nat)) ("2001:db8::/32") 1) = true ∧
    route.AddRoute (route.NewRouteTable (V := Nat)) ("2001:db8::/64") 1 = .crash ∧
    route.DelRoute (route.NewRouteTable (V := Nat)) ("2001:db8::/64") = .crash ∧
    route.AddRoute (route.NewRouteTable (V := Nat)) ("10.0.0.300/24") 1 = .error := by
  decide

/-- C8 — refuted (code bug).  The sectioned variant's `RouteLookup` takes
its bitmask snapshot with `sec.RLock()` … `sec.Unlock()`: the write-unlock
of a read-locked `RWMutex`, which Go's `sync` package turns into the fatal
error `sync: Unlock of unlocked RWMutex`.  Hence every routev2 lookup, on
every table state and every address, crashes instead of returning a value
or not-found.  (The flat variant's `RouteLookup`, whose lock pairs are
balanced, is embedded as the total function `route.RouteLookup`.) -/
theorem c8_sectioned_lookup_always_crashes :
    ∀ (V : Type) (rt : routev2.routeTable V) (ip : Nat),
      routev2.RouteLookup rt ip = .crash :=
  fun _ _ _ => rfl

/-! ### Occupancy-invariant preservation (helper lemmas for C5 and C9) -/

theorem route_new_inv {V : Type} : route.Inv (route.NewRouteTable (V := V)) := by
  refine ⟨by simp [route.NewRouteTable], by norm_num [route.NewRouteTable], ?_⟩
  intro i hi
  rw [route.NewRouteTable]
  simp only [getD_range_map _ _ _ _ hi]
  simp

theorem route_addCore_inv {V : Type} {rt rt' : route.routeTable V} {a b : List Nat} {v : V}
    (hI : route.Inv rt) (h : route.addRouteCore rt a b v = .ok rt') : route.Inv rt' := by
  obtain ⟨hlen, hbnd, hbits⟩ := hI
  cases hb : beUint32 a with
  | none => rw [route.addRouteCore, hb] at h; exact GoResult.noConfusion h
  | some net =>
    rw [route.addRouteCore, hb] at h
    simp only [] at h
    split at h
    case isFalse => exact GoResult.noConfusion h
    case isTrue hc =>
      set s : Nat := ((32 : Int) - ((maskSize b).1 : Int)).toNat with hs
      have hs32 : s < 32 := by omega
      have hsl : s < rt.rts.length := by omega
      split at h
      case isTrue hn =>
        cases h
        refine ⟨by simpa using hlen, hbnd, ?_⟩
        intro i hi
        by_cases hise : i = s
        · subst hise
          rw [getD_set_self _ _ _ _ hsl]
          exact iff_of_true ((hbits s hi).mpr (List.length_pos.mp hn)) (mapInsert_ne_nil _ _ _)
        · rw [getD_set_ne _ _ _ (by omega)]
          exact hbits i hi
      case isFalse hn =>
        have hold : (rt.rts.getD s route.entry0).rtHash = [] :=
          List.length_eq_zero.mp (by omega)
        rw [getD_set_self _ _ _ _ hsl] at h
        simp only [hold, mapInsert, List.length_cons, List.length_nil] at h
        rw [if_pos (by omega)] at h
        cases h
        refine ⟨by simpa using hlen, Nat.or_lt_two_pow hbnd (Nat.mod_lt _ (by norm_num)), ?_⟩
        intro i hi
        have hpow : (1 <<< s) % 2 ^ 32 = 2 ^ s := by
          rw [Nat.shiftLeft_eq, one_mul,
            Nat.mod_eq_of_lt (Nat.pow_lt_pow_right (by norm_num) hs32)]
        by_cases hise : i = s
        · subst hise
          rw [getD_set_self _ _ _ _ hsl]
          refine iff_of_true ?_ (by simp)
          rw [hpow, Nat.testBit_or, Nat.testBit_two_pow_self]
          simp
        · rw [getD_set_ne _ _ _ (by omega)]
          rw [hpow, Nat.testBit_or, Nat.testBit_two_pow_of_ne (by omega)]
          simpa using hbits i hi

theorem route_delCore_inv {V : Type} {rt rt' : route.routeTable V} {a b : List Nat}
    (hI : route.Inv rt) (h : route.delRouteCore rt a b = .ok rt') : route.Inv rt' := by
  obtain ⟨hlen, hbnd, hbits⟩ := hI
  cases hb : beUint32 a with
  | none => rw [route.delRouteCore, hb] at h; exact GoResult.noConfusion h
  | some net =>
    rw [route.delRouteCore, hb] at h
    simp only [] at h
    split at h
    case isFalse => exact GoResult.noConfusion h
    case isTrue hc =>
      set s : Nat := ((32 : Int) - ((maskSize b).1 : Int)).toNat with hs
      have hs32 : s < 32 := by omega
      have hsl : s < rt.rts.length := by omega
      rw [getD_set_self _ _ _ _ hsl] at h
      by_cases hemp : (mapDelete (rt.rts.getD s route.entry0).rtHash net).length = 0
      · rw [if_pos hemp] at h
        cases h
        refine ⟨by simpa using hlen, lt_of_le_of_lt Nat.and_le_left hbnd, ?_⟩
        intro i hi
        have hpow : (1 <<< s) % 2 ^ 32 = 2 ^ s := by
          rw [Nat.shiftLeft_eq, one_mul,
            Nat.mod_eq_of_lt (Nat.pow_lt_pow_right (by norm_num) hs32)]
        by_cases hise : i = s
        · subst hise
          rw [getD_set_self _ _ _ _ hsl]
          refine iff_of_false ?_ (by simpa using List.length_eq_zero.mp hemp)
          rw [hpow, Nat.testBit_and, Nat.testBit_xor, Nat.testBit_two_pow_sub_one,
            Nat.testBit_two_pow_self]
          simp [hi]
        · rw [getD_set_ne _ _ _ (by omega)]
          rw [hpow, Nat.testBit_and, Nat.testBit_xor, Nat.testBit_two_pow_sub_one,
            Nat.testBit_two_pow_of_ne (by omega)]
          simpa [hi] using hbits i hi
      · rw [if_neg hemp] at h
        cases h
        refine ⟨by simpa using hlen, hbnd, ?_⟩
        intro i hi
        by_cases hise : i = s
        · subst hise
          rw [getD_set_self _ _ _ _ hsl]
          have hne : (rt.rts.getD s route.entry0).rtHash ≠ [] := by
            intro hn0
            exact hemp (by rw [hn0]; rfl)
          exact iff_of_true ((hbits s hi).mpr hne) (by simpa using hemp)
        · rw [getD_set_ne _ _ _ (by omega)]
          exact hbits i hi

theorem routev2_new_inv {V : Type} : routev2.Inv (routev2.NewRouteTable (V := V)) := by
  refine ⟨by simp [routev2.NewRouteTable], ?_⟩
  intro i hi
  rw [routev2.NewRouteTable]
  simp only [getD_range_map _ _ _ _ hi]
  refine ⟨by norm_num, by simp, ?_⟩
  intro j hj
  simp only [getD_range_map _ _ _ _ hj]
  simp

theorem routev2_addCore_inv {V : Type} {rt rt' : routev2.routeTable V} {a b : List Nat} {v : V}
    (hI : routev2.Inv rt) (h : routev2.addRouteCore rt a b v = .ok rt') : routev2.Inv rt' := by
  obtain ⟨hlen, hsec⟩ := hI
  cases hb : beUint32 a with
  | none => rw [routev2.addRouteCore, hb] at h; exact GoResult.noConfusion h
  | some net =>
    rw [routev2.addRouteCore, hb] at h
    simp only [] at h
    split at h
    case isFalse => exact GoResult.noConfusion h
    case isTrue hc =>
      set si : Nat := (Int.tdiv (32 - ((maskSize b).1 : Int)) 4).toNat with hsi
      set sj : Nat := ((32 - ((maskSize b).1 : Int)) % 8).toNat with hsj
      have hsi4 : si < 4 := by omega
      have hsj8 : sj < 8 := by omega
      have hsl : si < rt.rts.length := by omega
      obtain ⟨hbnd, hslen, hbits⟩ := hsec si hsi4
      have hjl : sj < (rt.rts.getD si routev2.sec0).rtSec.length := by omega
      cases h
      refine ⟨by simpa using hlen, ?_⟩
      intro i hi
      by_cases hisi : i = si
      · subst hisi
        rw [getD_set_self _ _ _ _ hsl]
        have hpow : (1 <<< sj) % 2 ^ 8 = 2 ^ sj := by
          rw [Nat.shiftLeft_eq, one_mul,
            Nat.mod_eq_of_lt (Nat.pow_lt_pow_right (by norm_num) hsj8)]
        refine ⟨?_, by simpa using hslen, ?_⟩
        · rw [hpow]
          exact Nat.or_lt_two_pow hbnd (Nat.pow_lt_pow_right (by norm_num) hsj8)
        intro j hj
        by_cases hjsj : j = sj
        · subst hjsj
          rw [getD_set_self _ _ _ _ hjl]
          refine iff_of_true ?_ (mapInsert_ne_nil _ _ _)
          rw [hpow, Nat.testBit_or, Nat.testBit_two_pow_self]
          simp
        · rw [getD_set_ne _ _ _ (by omega)]
          rw [hpow, Nat.testBit_or, Nat.testBit_two_pow_of_ne (by omega)]
          simpa using hbits j hj
      · rw [getD_set_ne _ _ _ (by omega)]
        exact hsec i hi

theorem routev2_delCore_inv {V : Type} {rt rt' : routev2.routeTable V} {a b : List Nat}
    (hI : routev2.Inv rt) (h : routev2.delRouteCore rt a b = .ok rt') : routev2.Inv rt' := by
  obtain ⟨hlen, hsec⟩ := hI
  cases hb : beUint32 a with
  | none => rw [routev2.delRouteCore, hb] at h; exact GoResult.noConfusion h
  | some net =>
    rw [routev2.delRouteCore, hb] at h
    simp only [] at h
    split at h
    case isFalse => exact GoResult.noConfusion h
    case isTrue hc =>
      set si : Nat := (Int.tdiv (32 - ((maskSize b).1 : Int)) 4).toNat with hsi
      set sj : Nat := ((32 - ((maskSize b).1 : Int)) % 8).toNat with hsj
      have hsi4 : si < 4 := by omega
      have hsj8 : sj < 8 := by omega
      have hsl : si < rt.rts.length := by omega
      obtain ⟨hbnd, hslen, hbits⟩ := hsec si hsi4
      have hjl : sj < (rt.rts.getD si routev2.sec0).rtSec.length := by omega
      have hpow : (1 <<< sj) % 2 ^ 8 = 2 ^ sj := by
        rw [Nat.shiftLeft_eq, one_mul,
          Nat.mod_eq_of_lt (Nat.pow_lt_pow_right (by norm_num) hsj8)]
      cases h
      refine ⟨by simpa using hlen, ?_⟩
      intro i hi
      by_cases hisi : i = si
      · subst hisi
        rw [getD_set_self _ _ _ _ hsl]
        by_cases hemp : (mapDelete ((rt.rts.getD si routev2.sec0).rtSec.getD sj
            routev2.entry0).rtHash net).length = 0
        · rw [if_pos hemp]
          refine ⟨lt_of_le_of_lt Nat.and_le_left hbnd, by simpa using hslen, ?_⟩
          intro j hj
          by_cases hjsj : j = sj
          · subst hjsj
            rw [getD_set_self _ _ _ _ hjl]
            refine iff_of_false ?_ (by simpa using List.length_eq_zero.mp hemp)
            rw [hpow, Nat.testBit_and, Nat.testBit_xor, Nat.testBit_two_pow_sub_one,
              Nat.testBit_two_pow_self]
            simp [hj]
          · rw [getD_set_ne _ _ _ (by omega)]
            rw [hpow, Nat.testBit_and, Nat.testBit_xor, Nat.testBit_two_pow_sub_one,
              Nat.testBit_two_pow_of_ne (by omega)]
            simpa [hj] using hbits j hj
        · rw [if_neg hemp]
          refine ⟨hbnd, by simpa using hslen, ?_⟩
          intro j hj
          by_cases hjsj : j = sj
          · subst hjsj
            rw [getD_set_self _ _ _ _ hjl]
            have hne : ((rt.rts.getD si routev2.sec0).rtSec.getD sj
                routev2.entry0).rtHash ≠ [] := by
              intro hn0
              exact hemp (by rw [hn0]; rfl)
            exact iff_of_true ((hbits sj hj).mpr hne) (by simpa using hemp)
          · rw [getD_set_ne _ _ _ (by omega)]
            exact hbits j hj
      · rw [getD_set_ne _ _ _ (by omega)]
        exact hsec i hi

theorem route_add_inv {V : Type} {rt rt' : route.routeTable V} {s : String} {v : V}
    (hI : route.Inv rt) (h : route.AddRoute rt s v = .ok rt') : route.Inv rt' := by
  rw [route.AddRoute] at h
  cases hp : ParseCIDR s.toList with
  | none => rw [hp] at h; exact GoResult.noConfusion h
  | some pr =>
    obtain ⟨a, b⟩ := pr
    rw [hp] at h
    exact route_addCore_inv hI h

theorem route_del_inv {V : Type} {rt rt' : route.routeTable V} {s : String}
    (hI : route.Inv rt) (h : route.DelRoute rt s = .ok rt') : route.Inv rt' := by
  rw [route.DelRoute] at h
  cases hp : ParseCIDR s.toList with
  | none => rw [hp] at h; exact GoResult.noConfusion h
  | some pr =>
    obtain ⟨a, b⟩ := pr
    rw [hp] at h
    exact route_delCore_inv hI h

theorem routev2_add_inv {V : Type} {rt rt' : routev2.routeTable V} {s : String} {v : V}
    (hI : routev2.Inv rt) (h : routev2.AddRoute rt s v = .ok rt') : routev2.Inv rt' := by
  rw [routev2.AddRoute] at h
  cases hp : ParseCIDR s.toList with
  | none => rw [hp] at h; exact GoResult.noConfusion h
  | some pr =>
    obtain ⟨a, b⟩ := pr
    rw [hp] at h
    exact routev2_addCore_inv hI h

theorem routev2_del_inv {V : Type} {rt rt' : routev2.routeTable V} {s : String}
    (hI : routev2.Inv rt) (h : routev2.DelRoute rt s = .ok rt') : routev2.Inv rt' := by
  rw [routev2.DelRoute] at h
  cases hp : ParseCIDR s.toList with
  | none => rw [hp] at h; exact GoResult.noConfusion h
  | some pr =>
    obtain ⟨a, b⟩ := pr
    rw [hp] at h
    exact routev2_delCore_inv hI h

/-- C5 — confirmed.  Starting from the freshly constructed table (empty
mappings, zero bitmasks) and applying any sequence of successful
`AddRoute`/`DelRoute` calls, in the flat variant and in the sectioned
variant alike, bit `j` of every occupancy bitmask is set iff the
corresponding slot's mapping is non-empty (`Inv` also records the array
lengths and that the bitmask fits its integer width). -/
theorem c5_occupancy_bitmask_invariant :
    (∀ (V : Type) (rt : route.routeTable V), route.Reachable rt → route.Inv rt) ∧
    (∀ (V : Type) (rt : routev2.routeTable V), routev2.Reachable rt → routev2.Inv rt) := by
  constructor
  · intro V rt h
    induction h with
    | base => exact route_new_inv
    | add hr hok ih => exact route_add_inv ih hok
    | del hr hok ih => exact route_del_inv ih hok
  · intro V rt h
    induction h with
    | base => exact routev2_new_inv
    | add hr hok ih => exact routev2_add_inv ih hok
    | del hr hok ih => exact routev2_del_inv ih hok

/-- Witness for C5: the invariant holds at a concrete reachable state. -/
theorem c5_occupancy_bitmask_invariant_witness : route.Inv (route.NewRouteTable (V := Nat)) :=
  c5_occupancy_bitmask_invariant.1 Nat route.NewRouteTable route.Reachable.base

/-- Counterexample to C9 as stated: deleting an absent network/prefix pair
given by a syntactically valid IPv4 CIDR can panic instead of returning
success with the table unchanged — in the flat variant for the default
route `/0` (slot 32 of the `[32]rtEntry` array), and in the sectioned
variant already for `/16` (slot 16, section index 16/4 = 4 on the
`[4]rtSection` array); both tables here are fresh, so the pairs are
certainly not registered. -/
theorem c9_del_absent_crashes :
    route.DelRoute (route.NewRouteTable (V := Nat)) ("0.0.0.0/0") = .crash ∧
    routev2.DelRoute (routev2.NewRouteTable (V := Nat)) ("10.0.0.0/16") = .crash := by
  decide

/-- Helper for C9, flat variant: for a valid IPv4 CIDR with prefix length
in [1, 32], deleting a network/prefix pair that is not registered returns
success and leaves the table state literally unchanged.  The occupancy
invariant `Inv` (which every reachable table satisfies, by C5's theorem)
is assumed so that the bitmask-clearing branch cannot alter an
already-clear bit. -/
theorem route_del_absent_noop {V : Type} (rt : route.routeTable V) (s : String)
    (ipB maskB : List Nat) (net : Nat)
    (hp : ParseCIDR s.toList = some (ipB, maskB))
    (hI : route.Inv rt)
    (hb : beUint32 ipB = some net)
    (hL1 : 1 ≤ (maskSize maskB).1) (hL2 : (maskSize maskB).1 ≤ 32)
    (habs : ∀ p ∈ (rt.rts.getD (32 - (maskSize maskB).1) route.entry0).rtHash, p.1 ≠ net) :
    route.DelRoute rt s = .ok rt := by
  obtain ⟨sm, rts⟩ := rt
  obtain ⟨hlen, hbnd, hbits⟩ := hI
  simp only at hlen hbnd hbits habs
  rw [route.DelRoute, hp]
  show route.delRouteCore ⟨sm, rts⟩ ipB maskB = .ok ⟨sm, rts⟩
  rw [route.delRouteCore, hb]
  simp only []
  rw [if_pos (by constructor <;> omega)]
  set sN : Nat := ((32 : Int) - ((maskSize maskB).1 : Int)).toNat with hsN
  have hseq : sN = 32 - (maskSize maskB).1 := by omega
  have hs32 : sN < 32 := by omega
  have hsl : sN < rts.length := by omega
  have hdel : mapDelete (rts.getD sN route.entry0).rtHash net
      = (rts.getD sN route.entry0).rtHash := by
    apply mapDelete_of_absent
    intro p hp2
    exact habs p (by rw [← hseq]; exact hp2)
  rw [hdel]
  have heta : (⟨(rts.getD sN route.entry0).mask, (rts.getD sN route.entry0).rtHash⟩ :
      route.rtEntry V) = rts.getD sN route.entry0 := rfl
  rw [heta, set_getD_self _ _ _ hsl]
  by_cases h0 : (rts.getD sN route.entry0).rtHash.length = 0
  · rw [if_pos h0]
    have hbit : sm.testBit sN = false := by
      have hiff := hbits sN hs32
      have hnil : (rts.getD sN route.entry0).rtHash = [] := List.length_eq_zero.mp h0
      rcases Bool.eq_false_or_eq_true (sm.testBit sN) with ht | hf
      · exact absurd hnil (hiff.mp ht)
      · exact hf
    have hpow : (1 <<< sN) % 2 ^ 32 = 2 ^ sN := by
      rw [Nat.shiftLeft_eq, one_mul,
        Nat.mod_eq_of_lt (Nat.pow_lt_pow_right (by norm_num) hs32)]
    have hsm : sm &&& ((2 ^ 32 - 1) ^^^ ((1 <<< sN) % 2 ^ 32)) = sm := by
      refine Nat.eq_of_testBit_eq fun i => ?_
      rw [Nat.testBit_and, Nat.testBit_xor, hpow, Nat.testBit_two_pow_sub_one]
      by_cases hisN : i = sN
      · subst hisN
        rw [Nat.testBit_two_pow_self, hbit]
        simp
      · rw [Nat.testBit_two_pow_of_ne (by omega)]
        by_cases hi32 : i < 32
        · simp [hi32]
        · have hhi : sm.testBit i = false :=
            Nat.testBit_lt_two_pow
              (lt_of_lt_of_le hbnd (Nat.pow_le_pow_right (by norm_num) (by omega)))
          simp [hhi]
    rw [hsm]
  · rw [if_neg h0]

/-- Helper for C9, sectioned variant: for a valid IPv4 CIDR with prefix
length in [17, 32] — the range in which routev2's section index
`slot / 4` is in bounds — deleting a network/prefix pair that is not
registered (absence stated at the `(slot/4, slot%8)` position the code
actually addresses) returns success and leaves the table unchanged. -/
theorem routev2_del_absent_noop {V : Type} (rt : routev2.routeTable V) (s : String)
    (ipB maskB : List Nat) (net : Nat)
    (hp : ParseCIDR s.toList = some (ipB, maskB))
    (hI : routev2.Inv rt)
    (hb : beUint32 ipB = some net)
    (hL1 : 17 ≤ (maskSize maskB).1) (hL2 : (maskSize maskB).1 ≤ 32)
    (habs : ∀ p ∈ ((rt.rts.getD ((32 - (maskSize maskB).1) / 4) routev2.sec0).rtSec.getD
        ((32 - (maskSize maskB).1) % 8) routev2.entry0).rtHash, p.1 ≠ net) :
    routev2.DelRoute rt s = .ok rt := by
  obtain ⟨rts⟩ := rt
  obtain ⟨hlen, hsec⟩ := hI
  simp only at hlen hsec habs
  rw [routev2.DelRoute, hp]
  show routev2.delRouteCore ⟨rts⟩ ipB maskB = .ok ⟨rts⟩
  rw [routev2.delRouteCore, hb]
  simp only []
  have htd : Int.tdiv (32 - ((maskSize maskB).1 : Int)) 4
      = (32 - ((maskSize maskB).1 : Int)) / 4 :=
    Int.tdiv_eq_ediv (by omega) (by norm_num)
  rw [if_pos (by rw [htd]; constructor <;> omega)]
  set si : Nat := (Int.tdiv (32 - ((maskSize maskB).1 : Int)) 4).toNat with hsi
  set sj : Nat := ((32 - ((maskSize maskB).1 : Int)) % 8).toNat with hsj
  have hsi2 : si = ((32 - ((maskSize maskB).1 : Int)) / 4).toNat := by rw [hsi, htd]
  have hsiN : si = (32 - (maskSize maskB).1) / 4 := by omega
  have hsjN : sj = (32 - (maskSize maskB).1) % 8 := by omega
  have hsi4 : si < 4 := by omega
  have hsj8 : sj < 8 := by omega
  obtain ⟨hbnd, hslen, hbits⟩ := hsec si hsi4
  have hsl : si < rts.length := by omega
  have hjl : sj < (rts.getD si routev2.sec0).rtSec.length := by omega
  have hdel : mapDelete ((rts.getD si routev2.sec0).rtSec.getD sj routev2.entry0).rtHash net
      = ((rts.getD si routev2.sec0).rtSec.getD sj routev2.entry0).rtHash := by
    apply mapDelete_of_absent
    intro p hp2
    refine habs p ?_
    rw [← hsiN, ← hsjN]
    exact hp2
  rw [hdel]
  have heta : (⟨((rts.getD si routev2.sec0).rtSec.getD sj routev2.entry0).mask,
      ((rts.getD si routev2.sec0).rtSec.getD sj routev2.entry0).rtHash⟩ :
      routev2.rtEntry V) = (rts.getD si routev2.sec0).rtSec.getD sj routev2.entry0 := rfl
  rw [heta, set_getD_self _ _ _ hjl]
  by_cases h0 : ((rts.getD si routev2.sec0).rtSec.getD sj routev2.entry0).rtHash.length = 0
  · rw [if_pos h0]
    have hbit : (rts.getD si routev2.sec0).slotMask.testBit sj = false := by
      have hiff := hbits sj hsj8
      have hnil : ((rts.getD si routev2.sec0).rtSec.getD sj routev2.entry0).rtHash = [] :=
        List.length_eq_zero.mp h0
      rcases Bool.eq_false_or_eq_true ((rts.getD si routev2.sec0).slotMask.testBit sj) with ht | hf
      · exact absurd hnil (hiff.mp ht)
      · exact hf
    have hpow : (1 <<< sj) % 2 ^ 8 = 2 ^ sj := by
      rw [Nat.shiftLeft_eq, one_mul,
        Nat.mod_eq_of_lt (Nat.pow_lt_pow_right (by norm_num) hsj8)]
    have hsm : (rts.getD si routev2.sec0).slotMask &&& ((2 ^ 8 - 1) ^^^ ((1 <<< sj) % 2 ^ 8))
        = (rts.getD si routev2.sec0).slotMask := by
      refine Nat.eq_of_testBit_eq fun i => ?_
      rw [Nat.testBit_and, Nat.testBit_xor, hpow, Nat.testBit_two_pow_sub_one]
      by_cases hisj : i = sj
      · subst hisj
        rw [Nat.testBit_two_pow_self, hbit]
        simp
      · rw [Nat.testBit_two_pow_of_ne (by omega)]
        by_cases hi8 : i < 8
        · simp [hi8]
        · have hhi : (rts.getD si routev2.sec0).slotMask.testBit i = false :=
            Nat.testBit_lt_two_pow
              (lt_of_lt_of_le hbnd (Nat.pow_le_pow_right (by norm_num) (by omega)))
          rw [hhi]
          simp
    rw [hsm]
    have hseta : (⟨(rts.getD si routev2.sec0).slotMask, (rts.getD si routev2.sec0).rtSec⟩ :
        routev2.rtSection V) = rts.getD si routev2.sec0 := rfl
    rw [hseta, set_getD_self _ _ _ hsl]
  · rw [if_neg h0]
    have hseta : (⟨(rts.getD si routev2.sec0).slotMask, (rts.getD si routev2.sec0).rtSec⟩ :
        routev2.rtSection V) = rts.getD si routev2.sec0 := rfl
    rw [hseta, set_getD_self _ _ _ hsl]

/-- C9 as amended: deleting an absent network/prefix pair returns success
and leaves the entire table state literally unchanged (hence every
subsequent `RouteLookup` returns the same result as before) exactly on
the prefix lengths where the slot indexing stays in bounds — in the flat
variant for prefix lengths in [1, 32] (length 0 panics), and in the
sectioned variant for prefix lengths in [17, 32] (lengths 0 through 16
panic, because the section index `slot / 4` reaches past the
`[4]rtSection` array); see the counterexample for both panics.  The
occupancy invariant of C5 is assumed, as every reachable table satisfies
it. -/
theorem c9_del_absent_noop :
    (∀ (V : Type) (rt : route.routeTable V) (s : String) (ipB maskB : List Nat) (net : Nat),
      ParseCIDR s.toList = some (ipB, maskB) → route.Inv rt → beUint32 ipB = some net →
      1 ≤ (maskSize maskB).1 → (maskSize maskB).1 ≤ 32 →
      (∀ p ∈ (rt.rts.getD (32 - (maskSize maskB).1) route.entry0).rtHash, p.1 ≠ net) →
      route.DelRoute rt s = .ok rt) ∧
    (∀ (V : Type) (rt : routev2.routeTable V) (s : String) (ipB maskB : List Nat) (net : Nat),
      ParseCIDR s.toList = some (ipB, maskB) → routev2.Inv rt → beUint32 ipB = some net →
      17 ≤ (maskSize maskB).1 → (maskSize maskB).1 ≤ 32 →
      (∀ p ∈ ((rt.rts.getD ((32 - (maskSize maskB).1) / 4) routev2.sec0).rtSec.getD
          ((32 - (maskSize maskB).1) % 8) routev2.entry0).rtHash, p.1 ≠ net) →
      routev2.DelRoute rt s = .ok rt) := by
  constructor
  · intro V rt s ipB maskB net hp hI hb hL1 hL2 habs
    exact route_del_absent_noop rt s ipB maskB net hp hI hb hL1 hL2 habs
  · intro V rt s ipB maskB net hp hI hb hL1 hL2 habs
    exact routev2_del_absent_noop rt s ipB maskB net hp hI hb hL1 hL2 habs

/-- Witness for C9's amended theorem: deleting the absent `10.0.0.0/24`
from the fresh table of either variant returns success with the table
unchanged. -/
theorem c9_del_absent_noop_witness :
    route.DelRoute (route.NewRouteTable (V := Nat)) ("10.0.0.0/24") = .ok route.NewRouteTable ∧
    routev2.DelRoute (routev2.NewRouteTable (V := Nat)) ("10.0.0.0/24")
      = .ok routev2.NewRouteTable :=
  ⟨c9_del_absent_noop.1 Nat route.NewRouteTable ("10.0.0.0/24") [10, 0, 0, 0] [255, 255, 255, 0]
      0x0A000000 (by decide) route_new_inv (by decide) (by decide) (by decide) (by decide),
   c9_del_absent_noop.2 Nat routev2.NewRouteTable ("10.0.0.0/24") [10, 0, 0, 0] [255, 255, 255, 0]
      0x0A000000 (by decide) routev2_new_inv (by decide) (by decide) (by decide) (by decide)⟩

/-- Both lookup loops agree once the structured result is flattened with
`Option.join`: the value Go actually returns is the stored value on a hit
and `nil` otherwise, so a stored `nil` flattens to the not-found answer. -/
theorem lookupIface_eq_join {W : Type} (rts : List (route.rtEntry (Option W))) (ip : Nat) :
    ∀ (f rtMask : Nat),
      route.lookupLoopIface rts ip rtMask f = (route.lookupLoop rts ip rtMask f).join := by
  intro f
  induction f with
  | zero => intro rtMask; rfl
  | succ f ih =>
    intro rtMask
    simp only [route.lookupLoopIface, route.lookupLoop]
    by_cases h0 : rtMask = 0
    · simp [h0]
    · rw [if_neg h0, if_neg h0]
      generalize (if rtMask &&& 1 ≠ 0 then
        mapLookup (rts.getD (32 - (f + 1)) route.entry0).rtHash
          (ip &&& (rts.getD (32 - (f + 1)) route.entry0).mask) else none) = r
      cases r with
      | some v => rfl
      | none => exact ih (rtMask >>> 1)

/-- C10 — confirmed.  At the public interface `RouteLookup` returns the Go
`interface{}` value `RouteLookupIface`, which equals the structured lookup
flattened by `Option.join`; consequently, whenever the best (first-probed)
match holds the value `nil` (`RouteLookup rt ip = some none`), the caller
receives exactly the not-found answer `nil`, indistinguishable from no
route matching at all. -/
theorem c10_nil_value_indistinguishable :
    ∀ (W : Type) (rt : route.routeTable (Option W)) (ip : Nat),
      route.RouteLookupIface rt ip = (route.RouteLookup rt ip).join ∧
      (route.RouteLookup rt ip = some none → route.RouteLookupIface rt ip = none) := by
  intro W rt ip
  have h : route.RouteLookupIface rt ip = (route.RouteLookup rt ip).join :=
    lookupIface_eq_join rt.rts ip 32 rt.slotMask
  refine ⟨h, fun hsome => ?_⟩
  rw [h, hsome]
  rfl

/-- Witness for C10: after registering `10.0.0.5/32` with value `nil`, the
lookup of `10.0.0.5` hits that route (`RouteLookup` = `some none`) and the
interface-level result is `nil`, the same answer as for no match. -/
theorem c10_nil_value_indistinguishable_witness :
    route.RouteLookupIface
      (getOk (route.AddRoute (route.NewRouteTable (V := Option Nat)) ("10.0.0.5/32") none)
        route.NewRouteTable) 0x0A000005 = none :=
  (c10_nil_value_indistinguishable Nat _ _).2 (by decide)
